import Mathlib

/-!
Shallow embedding of the WorldSeed-ConstructBabel texture-atlas core
(`wscb-type` geometry, `wscb-sdl` pixel blitter, `wscb-atlas` allocator),
together with theorems checking the natural-language specification
against the embedded code.

Machine integers: `PointUnit` is Rust `u32`; we model it as `Nat` with
explicit saturation at `UMAX = 2^32 - 1`, matching `saturating_add` /
`saturating_sub` / `saturating_mul`.  Fallible operations return
`Except SdlError`.  Backend effects (texture creation, texture locking)
are supplied by a `Backend` record of oracles so that failure paths are
expressible; the pixel buffers behind raw pointers are modelled as byte
maps `Nat → Nat`.
-/

set_option linter.dupNamespace false
set_option maxRecDepth 8000

namespace WSCB

/-- `u32::MAX`, the saturation bound of `PointUnit`. -/
def UMAX : Nat := 2 ^ 32 - 1

/-- Rust `u32::saturating_add` on the `Nat` model. -/
def satAdd (a b : Nat) : Nat := min (a + b) UMAX

/-- Rust `u32::saturating_sub`; on `Nat` truncated subtraction already saturates at 0. -/
def satSub (a b : Nat) : Nat := a - b

/-- Rust `u32::saturating_mul` on the `Nat` model. -/
def satMul (a b : Nat) : Nat := min (a * b) UMAX

/-- `wscb_type::graph::Point` (fields are `PointUnit = u32`). -/
structure Point where
  x : Nat
  y : Nat
deriving DecidableEq

/-- `wscb_type::graph::Size`. -/
structure Size where
  width : Nat
  height : Nat
deriving DecidableEq

/-- `wscb_type::graph::Rect`. -/
structure Rect where
  position : Point
  size : Size
deriving DecidableEq

/-- `Point::new`. -/
def Point.new (x y : Nat) : Point := ⟨x, y⟩

/-- `Size::new`. -/
def Size.new (w h : Nat) : Size := ⟨w, h⟩

/-- `Rect::new`. -/
def Rect.new (x y w h : Nat) : Rect := ⟨⟨x, y⟩, ⟨w, h⟩⟩

/-- `Rect::contains`: closed on top/left, open on bottom/right. -/
def Rect.contains (r : Rect) (p : Point) : Prop :=
  r.position.x ≤ p.x ∧ p.x < satAdd r.position.x r.size.width ∧
  r.position.y ≤ p.y ∧ p.y < satAdd r.position.y r.size.height

instance (r : Rect) (p : Point) : Decidable (r.contains p) := by
  unfold Rect.contains; infer_instance

/-- `Size::outset`: grow by `padding` on every side (saturating). -/
def Size.outset (s : Size) (padding : Nat) : Size :=
  Size.new (satAdd s.width (satMul padding 2)) (satAdd s.height (satMul padding 2))

/-- `Size::inset`. -/
def Size.inset (s : Size) (padding : Nat) : Size :=
  Size.new (satSub s.width (satMul padding 2)) (satSub s.height (satMul padding 2))

/-- `Size::max_dimension`: per-axis maximum. -/
def Size.max_dimension (s o : Size) : Size :=
  Size.new (max s.width o.width) (max s.height o.height)

/-- `wscb_type::error::SdlError`.  The `TryFromIntError` payload carries no
data we observe, so it is a bare constructor. -/
inductive SdlError where
  | SdlError (msg : String)
  | TryFromIntError
deriving DecidableEq

/-- `SdlError::sdl_err`.  In the source this decorates `msg` with SDL's
last-error string; the decoration depends only on external SDL state, which
we abstract away, keeping the message the code supplies. -/
def SdlError.sdl_err (msg : String) : WSCB.SdlError := .SdlError msg

/-- `wscb_sdl::graph::Texture`, reduced to its one observable for the
allocator: its fixed creation size (`Texture::size`, which the atlas reads
back and which on the embedded model always succeeds). -/
structure Texture where
  size : Size
deriving DecidableEq

/-- `wscb_atlas::AtlasSegment`. -/
inductive AtlasSegment where
  | Static (texture : Texture)
  | Dynamic (texture : Texture) (current_position : Point) (current_line_height : Nat)
deriving DecidableEq

/-- `AtlasSegment::allocate`.  The Rust method mutates `self` in place and
returns `Option<Point>`; we return the origin option together with the
post-call segment, which equals the input segment on every failing path. -/
def AtlasSegment.allocate (s : AtlasSegment) (request : Size) : Option Point × AtlasSegment :=
  match s with
  | .Static _ => (none, s)
  | .Dynamic texture current_position current_line_height =>
    let surface_height := texture.size.height
    let surface_width := texture.size.width
    if request.height > surface_height ∨ request.width > surface_width then
      (none, s)
    else
      -- try current line
      if satAdd current_position.y request.height > surface_height then
        -- we can never satisfy this request
        (none, s)
      else if satAdd current_position.x request.width ≤ surface_width then
        -- current line is enough
        let allocated := current_position
        let new_line_height := max current_line_height request.height
        let new_pen := Point.mk (satAdd current_position.x request.width) current_position.y
        (some allocated, .Dynamic texture new_pen new_line_height)
      else
        -- try next line
        let pen := Point.mk 0 (satAdd current_position.y current_line_height)
        let new_line_height := request.height
        if satAdd pen.y request.height > surface_height then
          -- we can never satisfy this request
          (none, s)
        else
          let allocated := pen
          let new_pen := Point.mk (satAdd pen.x request.width) pen.y
          (some allocated, .Dynamic texture new_pen new_line_height)

/-- `AtlasSegment::allocate_with_padding`: outset the request, allocate,
then shift the returned origin inward by `padding`. -/
def AtlasSegment.allocate_with_padding (s : AtlasSegment) (request : Size) (padding : Nat) :
    Option Point × AtlasSegment :=
  let request := request.outset padding
  match s.allocate request with
  | (none, s2) => (none, s2)
  | (some allocated, s2) =>
      (some (Point.mk (satAdd allocated.x padding) (satAdd allocated.y padding)), s2)

/-- `wscb_atlas::TextureHandle`.  `index` is the one-based segment index
(`NonZeroU32` in the source); `rect` is the inner rectangle. -/
structure TextureHandle where
  index : Nat
  rect : Rect
deriving DecidableEq

/-- The graphics backend the atlas calls into (`Renderer::create_texture`,
`Texture::lock`), as oracles.  `createErr size = some e` means texture
creation of that size fails with `e`; `lockErr seg rect` likewise decides the
outcome of locking `rect` on segment `seg`'s texture, and on success the lock
guard exposes pitch `lockPitch seg rect` and byte buffer
`lockPixels seg rect`. -/
structure Backend where
  createErr : Size → Option SdlError
  lockErr : Nat → Rect → Option SdlError
  lockPitch : Nat → Rect → Nat
  lockPixels : Nat → Rect → Nat → Nat

/-- `wscb_atlas::AtlasManager`.  `pixel_format` is the raw
`SDL_PixelFormat` value (a machine integer). -/
structure AtlasManager where
  segments : List AtlasSegment
  current_index : Nat
  padding : Nat
  default_size : Size
  pixel_format : Nat
deriving DecidableEq

/-- `AtlasManager::alloc_segment`: size is the default, raised per-axis to
`minimum_size` when given; the new segment is Dynamic with cursor at the
origin.  Texture creation may fail through the backend. -/
def AtlasManager.alloc_segment (b : Backend) (m : AtlasManager) (minimum_size : Option Size) :
    Except SdlError AtlasSegment :=
  let size :=
    match minimum_size with
    | some ms => m.default_size.max_dimension ms
    | none => m.default_size
  match b.createErr size with
  | some e => .error e
  | none =>
      .ok (.Dynamic ⟨size⟩ (Point.new 0 0) 0)

/-- `AtlasManager::empty`: one Dynamic segment of `atlas_segment_size`,
`current_index = 0`. -/
def AtlasManager.empty (b : Backend) (padding : Nat) (atlas_segment_size : Size)
    (pixel_format : Nat) : Except SdlError AtlasManager :=
  let this : AtlasManager :=
    { segments := []
      padding := padding
      default_size := atlas_segment_size
      current_index := 0
      pixel_format := pixel_format }
  match this.alloc_segment b none with
  | .error e => .error e
  | .ok allocated => .ok { this with segments := [allocated] }

/-- Stands in for a Rust panic (`unwrap` on a missing current segment,
`expect` on the fresh-segment allocation): the embedding surfaces it as an
error value; no reachable state in this development hits either. -/
def panicError (msg : String) : SdlError := .SdlError msg

/-- `AtlasManager::allocate`.  Faithful to the source, including the spill
path building the handle index from `current_index + 1` *before* the new
segment is pushed. -/
def AtlasManager.allocate (b : Backend) (m : AtlasManager) (request : Size) :
    Except SdlError (TextureHandle × AtlasManager) :=
  let index := m.current_index
  match m.segments.get? index with
  | none => .error (panicError "unwrap on missing current segment")
  | some segment =>
    match segment.allocate_with_padding request m.padding with
    | (some allocated, seg2) =>
        .ok (⟨index + 1, ⟨allocated, request⟩⟩,
             { m with segments := m.segments.set index seg2 })
    | (none, _) =>
      -- we need to create a new segment
      match m.alloc_segment b (some (request.outset m.padding)) with
      | .error e => .error e
      | .ok segment =>
        let index := m.current_index + 1
        match segment.allocate_with_padding request m.padding with
        | (none, _) => .error (panicError "this allocation should never fail")
        | (some allocated, seg2) =>
          let handle : TextureHandle := ⟨index, ⟨allocated, request⟩⟩
          let segments2 := m.segments ++ [seg2]
          .ok (handle, { m with segments := segments2,
                                current_index := segments2.length - 1 })

/-- `AtlasManager::get_texture_from_index`. -/
def AtlasManager.get_texture_from_index (m : AtlasManager) (idx : Nat) : Option Texture :=
  match m.segments.get? idx with
  | some (.Dynamic texture _ _) => some texture
  | some (.Static texture) => some texture
  | none => none

/-- `AtlasManager::get_texture`: resolves `handle.index - 1`. -/
def AtlasManager.get_texture (m : AtlasManager) (handle : TextureHandle) : Option Texture :=
  m.get_texture_from_index (handle.index - 1)

/-- `AtlasManager::render`.  The source converts `handle.rect` and `dst` to
`SDL_FRect`s, issues `SDL_RenderTexture` — whose boolean result
`drawResult` it discards — and returns `Ok(())`.  `drawResult` stands for
the backend draw call's success flag. -/
def AtlasManager.render (m : AtlasManager) (handle : TextureHandle) (dst : Option Rect)
    (drawResult : Bool) : Except SdlError Unit :=
  match m.get_texture handle with
  | none => .error (panicError "out of range segment index")
  | some _ =>
      -- SDL_RenderTexture(renderer, texture, &src, dst): result ignored
      .ok ()

/-- SDL's `SDL_BITSPERPIXEL` macro: bits 8..15 of the pixel-format value. -/
def SDL_BITSPERPIXEL (format : Nat) : Nat := (format / 2 ^ 8) % 2 ^ 8

/-- The `match` at the head of `wscb_sdl::copy_pixels` mapping bits-per-pixel
to bytes-per-pixel; every value outside the 31 listed ones falls to the
unsupported default (`256` would overflow the byte in the SDL macro, as the
source comment notes). -/
def pixelByteOf : Nat → Option Nat
  | 8 => some 1
  | 16 => some 2
  | 24 => some 3
  | 32 => some 4
  | 40 => some 5
  | 48 => some 6
  | 56 => some 7
  | 64 => some 8
  | 72 => some 9
  | 80 => some 10
  | 88 => some 11
  | 96 => some 12
  | 104 => some 13
  | 112 => some 14
  | 120 => some 15
  | 128 => some 16
  | 136 => some 17
  | 144 => some 18
  | 152 => some 19
  | 160 => some 20
  | 168 => some 21
  | 176 => some 22
  | 184 => some 23
  | 192 => some 24
  | 200 => some 25
  | 208 => some 26
  | 216 => some 27
  | 224 => some 28
  | 232 => some 29
  | 240 => some 30
  | 248 => some 31
  | _ => none

/-- One `ptr::copy_nonoverlapping(src_pos, dst_pos, n)` over byte maps:
bytes `dstOff ..< dstOff + n` of the destination are replaced by bytes
starting at `srcOff` of the source. -/
def copyRow (src dst : Nat → Nat) (srcOff dstOff n : Nat) : Nat → Nat :=
  fun i => if dstOff ≤ i ∧ i < dstOff + n then src (srcOff + (i - dstOff)) else dst i

/-- The `while y_index < src_height` loop of `copy_pixels`: rows
`0, 1, …, h-1` are copied in increasing order (so on overlap a later row
wins, as in the source). -/
def copyRows (src : Nat → Nat) (src_x src_y src_pitch dst_x dst_y dst_pitch pixel_byte w : Nat) :
    Nat → (Nat → Nat) → (Nat → Nat)
  | 0, dst => dst
  | n + 1, dst =>
      let dst2 := copyRows src src_x src_y src_pitch dst_x dst_y dst_pitch pixel_byte w n dst
      copyRow src dst2
        ((src_y + n) * src_pitch + src_x * pixel_byte)
        ((dst_y + n) * dst_pitch + dst_x * pixel_byte)
        (w * pixel_byte)

/-- `wscb_sdl::copy_pixels`.  Buffers are byte maps; the `usize`
conversions of the source (`u32 → usize`) cannot fail and are identities
here. -/
def copy_pixels (src : Nat → Nat) (src_rect : Rect) (src_pitch : Nat) (dst : Nat → Nat)
    (dst_pos : Point) (dst_pitch : Nat) (pixel_format : Nat) :
    Except SdlError (Nat → Nat) :=
  match pixelByteOf (SDL_BITSPERPIXEL pixel_format) with
  | none =>
      .error (SdlError.sdl_err "unsupported pixel format because of unsupported bitspixel")
  | some pixel_byte =>
      .ok (copyRows src src_rect.position.x src_rect.position.y src_pitch
            dst_pos.x dst_pos.y dst_pitch pixel_byte src_rect.size.width
            src_rect.size.height dst)

/-- A source image (`wscb_sdl::graph::Surface`) as the batched upload
observes it: pixel format, the outcome of the size query, raw pixels and
row pitch. -/
structure SurfaceM where
  format : Nat
  sizeResult : Except SdlError Size
  pixels : Nat → Nat
  pitch : Nat

/-- Placeholder for the (never-occurring) out-of-range `sources[orig_idx]`. -/
def defaultSurface : SurfaceM := ⟨0, .ok (Size.new 0 0), fun _ => 0, 0⟩

/-- `segment_groups.resize_with(segment_idx + 1, Vec::new)` followed by
`segment_groups[segment_idx].push(v)`. -/
def pushGroup (groups : List (List (Nat × TextureHandle))) (idx : Nat)
    (v : Nat × TextureHandle) : List (List (Nat × TextureHandle)) :=
  let groups2 :=
    if groups.length ≤ idx then groups ++ List.replicate (idx + 1 - groups.length) []
    else groups
  groups2.set idx (groups2.getD idx [] ++ [v])

/-- The allocation pass of `allocate_then_copy_surfaces`: for source `i`,
format-check, size-fetch, `allocate`; successes are recorded in the result
slot and in the segment group keyed by `handle.index - 1`.  Results are
produced in source order (the source pre-fills every slot and then assigns
each exactly once). -/
def allocPass (b : Backend) :
    AtlasManager → List SurfaceM → Nat → List (List (Nat × TextureHandle)) →
    List (Except SdlError TextureHandle) × List (List (Nat × TextureHandle)) × AtlasManager
  | m, [], _, groups => ([], groups, m)
  | m, source :: rest, i, groups =>
    if source.format ≠ m.pixel_format then
      let r := allocPass b m rest (i + 1) groups
      (.error (SdlError.sdl_err "source surface format mismatch with atlas pixel format")
        :: r.1, r.2)
    else
      match source.sizeResult with
      | .error e =>
          let r := allocPass b m rest (i + 1) groups
          (.error e :: r.1, r.2)
      | .ok source_size =>
        match m.allocate b source_size with
        | .ok (handle, m2) =>
            let segment_idx := handle.index - 1
            let groups2 := pushGroup groups segment_idx (i, handle)
            let r := allocPass b m2 rest (i + 1) groups2
            (.ok handle :: r.1, r.2)
        | .error e =>
            let r := allocPass b m rest (i + 1) groups
            (.error e :: r.1, r.2)

/-- One iteration of the bounding-box loop over the running
`(min_x, min_y, max_x, max_y)`. -/
def bboxStep (acc : Nat × Nat × Nat × Nat) (p : Nat × TextureHandle) : Nat × Nat × Nat × Nat :=
  (min acc.1 p.2.rect.position.x,
   min acc.2.1 p.2.rect.position.y,
   max acc.2.2.1 (p.2.rect.position.x + p.2.rect.size.width),
   max acc.2.2.2 (p.2.rect.position.y + p.2.rect.size.height))

/-- The bounding-box loop of the blit pass: running
`(min_x, min_y, max_x, max_y)` seeded `(u32::MAX, u32::MAX, 0, 0)`. -/
def bboxFold (group : List (Nat × TextureHandle)) : Nat × Nat × Nat × Nat :=
  group.foldl bboxStep (UMAX, UMAX, 0, 0)

/-- `Rect::new(min_x, min_y, max_x - min_x, max_y - min_y)`. -/
def bboxOf (group : List (Nat × TextureHandle)) : Rect :=
  let f := bboxFold group
  Rect.new f.1 f.2.1 (f.2.2.1 - f.1) (f.2.2.2 - f.2.1)

/-- Observable record of one processed segment group: which segment was
locked, the lock rectangle, the lock outcome, and the `copy_pixels` calls
(source index, destination position inside the lock buffer) issued under
the lock. -/
structure GroupEvent where
  segIdx : Nat
  bbox : Rect
  lockResult : Option SdlError
  blits : List (Nat × Point)
deriving DecidableEq

/-- The per-group blit loop (lock succeeded): each `(orig_idx, handle)` is
blitted at `handle.rect.position - bbox.position`; a failed `copy_pixels`
overwrites that result slot, others proceed.  The lock buffer is threaded
through successive blits. -/
def blitGroup (pf : Nat) (sources : List SurfaceM) (bbox : Rect) (guardPitch : Nat) :
    List (Nat × TextureHandle) → (Nat → Nat) → List (Except SdlError TextureHandle) →
    List (Except SdlError TextureHandle) × List (Nat × Point)
  | [], _, results => (results, [])
  | (orig_idx, handle) :: rest, buf, results =>
    let source := sources.getD orig_idx defaultSurface
    let dst_pos := Point.new (handle.rect.position.x - bbox.position.x)
                             (handle.rect.position.y - bbox.position.y)
    match copy_pixels source.pixels ⟨Point.new 0 0, handle.rect.size⟩ source.pitch
            buf dst_pos guardPitch pf with
    | .ok buf2 =>
        let r := blitGroup pf sources bbox guardPitch rest buf2 results
        (r.1, (orig_idx, dst_pos) :: r.2)
    | .error e =>
        let r := blitGroup pf sources bbox guardPitch rest buf (results.set orig_idx (.error e))
        (r.1, (orig_idx, dst_pos) :: r.2)

/-- The blit pass of `allocate_then_copy_surfaces`: skip empty groups; for
a non-empty group compute the bounding box, lock it once, then either blit
every member (lock ok) or overwrite every member's result with a clone of
the lock error. -/
def blitPass (b : Backend) (pf : Nat) (sources : List SurfaceM) :
    List (List (Nat × TextureHandle)) → Nat → List (Except SdlError TextureHandle) →
    List (Except SdlError TextureHandle) × List GroupEvent
  | [], _, results => (results, [])
  | group :: rest, segment_idx, results =>
    if group.isEmpty then blitPass b pf sources rest (segment_idx + 1) results
    else
      let bbox := bboxOf group
      match b.lockErr segment_idx bbox with
      | some e =>
          -- if lock fails, all handles in this group fail
          let results2 := group.foldl (fun rs p => rs.set p.1 (.error e)) results
          let r := blitPass b pf sources rest (segment_idx + 1) results2
          (r.1, ⟨segment_idx, bbox, some e, []⟩ :: r.2)
      | none =>
          let g := blitGroup pf sources bbox (b.lockPitch segment_idx bbox) group
                     (b.lockPixels segment_idx bbox) results
          let r := blitPass b pf sources rest (segment_idx + 1) g.1
          (r.1, ⟨segment_idx, bbox, none, g.2⟩ :: r.2)

/-- `AtlasManager::allocate_then_copy_surfaces`: allocation pass (groups
seeded with one empty vector per existing segment) followed by the blit
pass; returns the per-source results, the post-call manager and the trace
of group events. -/
def AtlasManager.allocate_then_copy_surfaces (b : Backend) (m : AtlasManager)
    (sources : List SurfaceM) :
    List (Except SdlError TextureHandle) × AtlasManager × List GroupEvent :=
  let groups0 : List (List (Nat × TextureHandle)) := List.replicate m.segments.length []
  let a := allocPass b m sources 0 groups0
  let r := blitPass b a.2.2.pixel_format sources a.2.1 0 a.1
  (r.1, a.2.2, r.2)

/-- A backend on which every texture creation and every lock succeeds
(lock guards expose pitch 1024 over a zeroed buffer); used to run the
spec's literal scenarios. -/
def okBackend : Backend :=
  ⟨fun _ => none, fun _ _ => none, fun _ _ => 1024, fun _ _ _ => 0⟩

/-!  ## Theorems  -/

/-- C8: `AtlasSegment::allocate` mutates the cursor only on success — on
every failing path the returned segment is exactly the input segment. -/
theorem allocate_fail_preserves_segment (s : AtlasSegment) (request : Size)
    (hfail : (s.allocate request).1 = none) : (s.allocate request).2 = s := by
  rcases s with t | ⟨t, pos, lh⟩
  · rfl
  · simp only [AtlasSegment.allocate] at hfail ⊢
    split_ifs at hfail ⊢ <;> simp_all

/-- Witness for C8 at a concrete failing input: a `(50,50)` request on a
fresh Dynamic `(32,32)` segment fails and leaves the segment unchanged. -/
theorem allocate_fail_preserves_segment_witness :
    ((AtlasSegment.Dynamic ⟨Size.new 32 32⟩ (Point.new 0 0) 0).allocate (Size.new 50 50)).1
        = none ∧
      ((AtlasSegment.Dynamic ⟨Size.new 32 32⟩ (Point.new 0 0) 0).allocate (Size.new 50 50)).2
        = AtlasSegment.Dynamic ⟨Size.new 32 32⟩ (Point.new 0 0) 0 :=
  ⟨by decide, allocate_fail_preserves_segment _ _ (by decide)⟩

/-- C9: on a Dynamic segment whose cursor is inside the texture (as in
every reachable state, whose coordinates are `u32` values), a zero-size
request succeeds at the current pen and leaves the cursor untouched. -/
theorem allocate_zero_size_is_noop (t : Texture) (pos : Point) (lh : Nat)
    (hx : pos.x ≤ t.size.width) (hy : pos.y ≤ t.size.height)
    (hW : t.size.width ≤ UMAX) (hH : t.size.height ≤ UMAX) :
    (AtlasSegment.Dynamic t pos lh).allocate (Size.new 0 0)
      = (some pos, AtlasSegment.Dynamic t pos lh) := by
  obtain ⟨px, py⟩ := pos
  simp only [AtlasSegment.allocate, Size.new, satAdd, UMAX] at *
  split_ifs with h1 h2 h3 h4
  · exfalso; omega
  · exfalso; omega
  · simp only [Prod.mk.injEq, Option.some.injEq, AtlasSegment.Dynamic.injEq, Point.mk.injEq,
      true_and, and_true]
    omega
  · exfalso; omega
  · exfalso; omega

/-- Witness for C9: zero-size request at pen `(5,7)`, line height 3, on a
`(32,32)` segment. -/
theorem allocate_zero_size_is_noop_witness :
    (AtlasSegment.Dynamic ⟨Size.new 32 32⟩ (Point.new 5 7) 3).allocate (Size.new 0 0)
      = (some (Point.new 5 7), AtlasSegment.Dynamic ⟨Size.new 32 32⟩ (Point.new 5 7) 3) :=
  allocate_zero_size_is_noop ⟨Size.new 32 32⟩ (Point.new 5 7) 3
    (by decide) (by decide) (by decide) (by decide)

/-- C10: `AtlasManager::render` ignores the boolean result of
`SDL_RenderTexture` and returns `Ok(())` for every handle resolving to a
stored segment and every destination, whether or not the draw succeeded.
(A handle whose `index - 1` is out of range is a programming error that
aborts in the source; such handles never originate from the manager.) -/
theorem render_always_ok (m : AtlasManager) (handle : TextureHandle) (dst : Option Rect)
    (drawResult : Bool) (hvalid : handle.index - 1 < m.segments.length) :
    m.render handle dst drawResult = .ok () := by
  unfold AtlasManager.render AtlasManager.get_texture AtlasManager.get_texture_from_index
  rcases hseg : m.segments.get? (handle.index - 1) with _ | seg
  · rw [List.get?_eq_none] at hseg
    omega
  · rcases seg <;> simp

/-- Witness for C10: a failed draw (`drawResult = false`) on a valid handle
still yields `Ok(())`. -/
theorem render_always_ok_witness :
    AtlasManager.render
      ⟨[AtlasSegment.Dynamic ⟨Size.new 32 32⟩ (Point.new 0 0) 0], 0, 0, Size.new 32 32, 8192⟩
      ⟨1, Rect.new 0 0 8 8⟩ none false = .ok () :=
  render_always_ok _ _ _ _ (by decide)

/-- The shelf-packing procedure exactly as the spec (§4.2) words it, for
comparison with the translated `AtlasSegment::allocate`: given segment size
`(W, H)`, cursor `(pen, line_height)` and request `(w, h)`, return `none`
on failure or `(origin, new pen, new line_height)`; additions saturate. -/
def shelfSpecStep (W H : Nat) (pen : Point) (line_height w h : Nat) :
    Option (Point × Point × Nat) :=
  if h > H ∨ w > W then none
  else if satAdd pen.y h > H then none
  else if satAdd pen.x w ≤ W then
    some (pen, Point.mk (satAdd pen.x w) pen.y, max line_height h)
  else
    let pen2 := Point.mk 0 (satAdd pen.y line_height)
    if satAdd pen2.y h > H then none
    else some (pen2, Point.mk w pen2.y, h)

/-- C3: on a Dynamic segment, `AtlasSegment::allocate` computes exactly the
spec's shelf procedure: same failure conditions, same returned origin, same
cursor update (the one hypothesis, that the texture width is a `u32` value,
makes the source's saturating `0 + w` equal the spec's plain `w` on the
next-line path). -/
theorem atlasSegment_allocate_matches_shelf_spec (t : Texture) (pos : Point) (lh : Nat)
    (request : Size) (hW : t.size.width ≤ UMAX) :
    (AtlasSegment.Dynamic t pos lh).allocate request =
      match shelfSpecStep t.size.width t.size.height pos lh request.width request.height with
      | none => (none, AtlasSegment.Dynamic t pos lh)
      | some (origin, pen2, lh2) => (some origin, AtlasSegment.Dynamic t pen2 lh2) := by
  simp only [AtlasSegment.allocate, shelfSpecStep]
  split_ifs with h1 h2 h3 h4
  · rfl
  · rfl
  · rfl
  · rfl
  · simp only [Prod.mk.injEq, Option.some.injEq, AtlasSegment.Dynamic.injEq, Point.mk.injEq,
      true_and, and_true]
    simp only [satAdd, UMAX] at *
    omega

/-- Witness for C3 at a concrete input exercising the next-line path: pen
`(30, 0)`, line height 10, request `(8, 8)` on a `(32, 32)` segment wraps
to origin `(0, 10)` with pen `(8, 10)` and line height 8. -/
theorem atlasSegment_allocate_matches_shelf_spec_witness :
    (AtlasSegment.Dynamic ⟨Size.new 32 32⟩ (Point.new 30 0) 10).allocate (Size.new 8 8)
      = match shelfSpecStep 32 32 (Point.new 30 0) 10 8 8 with
        | none => (none, AtlasSegment.Dynamic ⟨Size.new 32 32⟩ (Point.new 30 0) 10)
        | some (origin, pen2, lh2) => (some origin, AtlasSegment.Dynamic ⟨Size.new 32 32⟩ pen2 lh2) :=
  atlasSegment_allocate_matches_shelf_spec ⟨Size.new 32 32⟩ (Point.new 30 0) 10
    (Size.new 8 8) (by decide)

/-- C1 (failing run): from `empty` with default `(32,32)` and padding 0, two
`(20,20)` allocations make the second spill into a freshly pushed segment
(segment count 2, `current_index = 1`), yet the returned handle has
`index = 1`, i.e. `handle.index - 1 = 0`: it names the *old* segment, not
the newly pushed one at index 1, and both allocations return handles with
the same `index`. -/
theorem allocate_spill_handle_names_old_segment :
    ((AtlasManager.empty okBackend 0 (Size.new 32 32) 8192).bind fun m0 =>
      (m0.allocate okBackend (Size.new 20 20)).bind fun r1 =>
        (r1.2.allocate okBackend (Size.new 20 20)).map fun r2 => (r1.1, r2.1, r2.2))
      = .ok (⟨1, Rect.new 0 0 20 20⟩, ⟨1, Rect.new 0 0 20 20⟩,
          ⟨[AtlasSegment.Dynamic ⟨Size.new 32 32⟩ (Point.new 20 0) 20,
            AtlasSegment.Dynamic ⟨Size.new 32 32⟩ (Point.new 20 0) 20],
           1, 0, Size.new 32 32, 8192⟩) ∧ (1 : Nat) - 1 ≠ 1 := by
  constructor
  · rfl
  · decide

/-- C2 (failing run): the same two-allocation run returns two handles with
equal `index` fields whose inner rectangles are identical `((0,0),(20,20))`
— both contain the point `(0,0)`, so they are not disjoint. -/
theorem equal_index_handles_with_overlapping_rects :
    ((AtlasManager.empty okBackend 0 (Size.new 32 32) 8192).bind fun m0 =>
      (m0.allocate okBackend (Size.new 20 20)).bind fun r1 =>
        (r1.2.allocate okBackend (Size.new 20 20)).map fun r2 => (r1.1, r2.1))
      = .ok (⟨1, Rect.new 0 0 20 20⟩, ⟨1, Rect.new 0 0 20 20⟩) ∧
    (Rect.new 0 0 20 20).contains (Point.new 0 0) := by
  constructor
  · rfl
  · decide

/-- On a fresh Dynamic segment whose texture holds the padded request, the
padded allocation succeeds at the origin (inner origin `padding` in from
each edge). -/
theorem fresh_segment_allocate_with_padding (size request : Size) (padding : Nat)
    (hw : (request.outset padding).width ≤ size.width)
    (hh : (request.outset padding).height ≤ size.height) :
    (AtlasSegment.Dynamic ⟨size⟩ (Point.new 0 0) 0).allocate_with_padding request padding =
      (some (Point.new (satAdd 0 padding) (satAdd 0 padding)),
       AtlasSegment.Dynamic ⟨size⟩
         (Point.new (satAdd 0 (request.outset padding).width) 0)
         (max 0 (request.outset padding).height)) := by
  unfold AtlasSegment.allocate_with_padding
  simp only [AtlasSegment.allocate, Point.new]
  have hm : satAdd 0 (request.outset padding).height ≤ size.height := by
    simp only [satAdd, UMAX]; omega
  have hm2 : satAdd 0 (request.outset padding).width ≤ size.width := by
    simp only [satAdd, UMAX]; omega
  split_ifs with h1 h2
  · exfalso; omega
  · exfalso; omega
  · rfl

/-- C5: when the current segment rejects the padded request, the new
segment's texture is created with size `max(default_size, request.outset
(padding))` per axis and becomes the last, current segment; concretely,
default `(32,32)` with padding 2 and request `(40,8)` yields a new `(44,32)`
segment with the allocation's inner origin at `(2,2)`. -/
theorem spill_creates_max_dimension_segment :
    (∀ (b : Backend) (m : AtlasManager) (request : Size) (seg : AtlasSegment),
      m.segments.get? m.current_index = some seg →
      (seg.allocate_with_padding request m.padding).1 = none →
      b.createErr (m.default_size.max_dimension (request.outset m.padding)) = none →
      ∃ handle m2 pen lh, m.allocate b request = .ok (handle, m2) ∧
        m2.segments = m.segments ++
          [AtlasSegment.Dynamic ⟨m.default_size.max_dimension (request.outset m.padding)⟩
            pen lh] ∧
        m2.current_index = m.segments.length) ∧
    ((AtlasManager.empty okBackend 2 (Size.new 32 32) 8192).bind fun m0 =>
        m0.allocate okBackend (Size.new 40 8))
      = .ok (⟨1, Rect.new 2 2 40 8⟩,
          ⟨[AtlasSegment.Dynamic ⟨Size.new 32 32⟩ (Point.new 0 0) 0,
            AtlasSegment.Dynamic ⟨Size.new 44 32⟩ (Point.new 44 0) 12],
           1, 2, Size.new 32 32, 8192⟩) := by
  constructor
  · intro b m request seg hcur hfail hcreate
    rcases hE : seg.allocate_with_padding request m.padding with ⟨o, s2⟩
    rw [hE] at hfail
    simp only at hfail
    subst hfail
    unfold AtlasManager.allocate AtlasManager.alloc_segment
    simp only [hcur, hE, hcreate]
    rw [fresh_segment_allocate_with_padding _ _ _
      (by simp [Size.max_dimension, Size.new]) (by simp [Size.max_dimension, Size.new])]
    exact ⟨_, _, _, _, rfl, rfl, by simp⟩
  · rfl

/-- Witness for C5's general part, at the concrete oversize scenario. -/
theorem spill_creates_max_dimension_segment_witness :
    ∃ handle m2 pen lh,
      AtlasManager.allocate okBackend
        ⟨[AtlasSegment.Dynamic ⟨Size.new 32 32⟩ (Point.new 0 0) 0], 0, 2, Size.new 32 32, 8192⟩
        (Size.new 40 8) = .ok (handle, m2) ∧
      m2.segments = [AtlasSegment.Dynamic ⟨Size.new 32 32⟩ (Point.new 0 0) 0] ++
        [AtlasSegment.Dynamic ⟨(Size.new 32 32).max_dimension ((Size.new 40 8).outset 2)⟩
          pen lh] ∧
      m2.current_index = [AtlasSegment.Dynamic ⟨Size.new 32 32⟩ (Point.new 0 0) 0].length :=
  spill_creates_max_dimension_segment.1 okBackend
    ⟨[AtlasSegment.Dynamic ⟨Size.new 32 32⟩ (Point.new 0 0) 0], 0, 2, Size.new 32 32, 8192⟩
    (Size.new 40 8) (AtlasSegment.Dynamic ⟨Size.new 32 32⟩ (Point.new 0 0) 0)
    (by decide) (by decide) (by decide)

/-- `pixelByteOf`, characterised: defined exactly on the positive multiples
of 8 up to 248, where it divides by 8 (the scrutinee is a `BITSPERPIXEL`
field value, hence below 256). -/
theorem pixelByteOf_char (bits : Nat) (hb : bits < 256) :
    pixelByteOf bits =
      if bits % 8 = 0 ∧ 0 < bits ∧ bits ≤ 248 then some (bits / 8) else none := by
  have key : ∀ b : Fin 256, pixelByteOf b.val =
      if b.val % 8 = 0 ∧ 0 < b.val ∧ b.val ≤ 248 then some (b.val / 8) else none := by decide
  exact key ⟨bits, hb⟩

/-- A byte inside the copied range reads from the source. -/
theorem copyRow_apply_of_mem (src dst : Nat → Nat) (so d n i : Nat)
    (h1 : d ≤ i) (h2 : i < d + n) :
    copyRow src dst so d n i = src (so + (i - d)) := by
  unfold copyRow; rw [if_pos ⟨h1, h2⟩]

/-- A byte outside the copied range is untouched. -/
theorem copyRow_apply_of_not_mem (src dst : Nat → Nat) (so d n i : Nat)
    (h : i < d ∨ d + n ≤ i) :
    copyRow src dst so d n i = dst i := by
  unfold copyRow; rw [if_neg (by omega)]

/-- Inside the copied rows (row-disjointness granted by
`w * pb ≤ dst_pitch`), the final buffer reads the corresponding source
byte. -/
theorem copyRows_in (src : Nat → Nat) (sx sy sp dx dy dp pb w : Nat)
    (hpitch : w * pb ≤ dp) :
    ∀ (h : Nat) (dst : Nat → Nat) (y k : Nat), y < h → k < w * pb →
      copyRows src sx sy sp dx dy dp pb w h dst ((dy + y) * dp + dx * pb + k)
        = src ((sy + y) * sp + sx * pb + k) := by
  intro h
  induction h with
  | zero => intro dst y k hy _; omega
  | succ n ih =>
    intro dst y k hy hk
    simp only [copyRows]
    by_cases hyn : y = n
    · subst hyn
      rw [copyRow_apply_of_mem _ _ _ _ _ _ (Nat.le_add_right _ _) (by omega)]
      congr 1
      omega
    · have hlt : y < n := by omega
      rw [copyRow_apply_of_not_mem, ih dst y k hlt hk]
      left
      have h1 : (dy + y + 1) * dp ≤ (dy + n) * dp :=
        mul_le_mul_right' (by omega) dp
      have e : (dy + y + 1) * dp = (dy + y) * dp + dp := by ring
      omega

/-- Outside every copied row, the final buffer equals the original
destination. -/
theorem copyRows_out (src : Nat → Nat) (sx sy sp dx dy dp pb w : Nat) :
    ∀ (h : Nat) (dst : Nat → Nat) (i : Nat),
      (∀ y, y < h → i < (dy + y) * dp + dx * pb ∨ (dy + y) * dp + dx * pb + w * pb ≤ i) →
      copyRows src sx sy sp dx dy dp pb w h dst i = dst i := by
  intro h
  induction h with
  | zero => intro dst i _; rfl
  | succ n ih =>
    intro dst i hout
    simp only [copyRows]
    rw [copyRow_apply_of_not_mem _ _ _ _ _ _ (hout n (Nat.lt_succ_self n))]
    exact ih dst i fun y hy => hout y (by omega)

/-- C4: for bits-per-pixel a positive multiple of 8 at most 248,
`copy_pixels` derives `bpp = bits / 8` and returns Ok with, for every row
`y < src_rect.height`, the `src_rect.width * bpp` destination bytes at
offset `(dst_pos.y + y) * dst_pitch + dst_pos.x * bpp` equal to the source
bytes at offset `(src_rect.y + y) * src_pitch + src_rect.x * bpp`, leaving
every byte outside those ranges unchanged (rows are disjoint whenever the
destination pitch accommodates a row, the blitter's caller contract); for
any other bits-per-pixel it returns the unsupported-format error and copies
nothing. -/
theorem copy_pixels_copies_rows_or_rejects :
    (∀ (pf : Nat) (src : Nat → Nat) (src_rect : Rect) (src_pitch : Nat) (dst : Nat → Nat)
        (dst_pos : Point) (dst_pitch : Nat),
      SDL_BITSPERPIXEL pf % 8 = 0 → 0 < SDL_BITSPERPIXEL pf → SDL_BITSPERPIXEL pf ≤ 248 →
      src_rect.size.width * (SDL_BITSPERPIXEL pf / 8) ≤ dst_pitch →
      ∃ f, copy_pixels src src_rect src_pitch dst dst_pos dst_pitch pf = .ok f ∧
        (∀ y, y < src_rect.size.height →
          ∀ k, k < src_rect.size.width * (SDL_BITSPERPIXEL pf / 8) →
          f ((dst_pos.y + y) * dst_pitch + dst_pos.x * (SDL_BITSPERPIXEL pf / 8) + k)
            = src ((src_rect.position.y + y) * src_pitch
                + src_rect.position.x * (SDL_BITSPERPIXEL pf / 8) + k)) ∧
        (∀ i, (∀ y, y < src_rect.size.height →
            i < (dst_pos.y + y) * dst_pitch + dst_pos.x * (SDL_BITSPERPIXEL pf / 8) ∨
            (dst_pos.y + y) * dst_pitch + dst_pos.x * (SDL_BITSPERPIXEL pf / 8)
              + src_rect.size.width * (SDL_BITSPERPIXEL pf / 8) ≤ i) →
          f i = dst i)) ∧
    (∀ (pf : Nat) (src : Nat → Nat) (src_rect : Rect) (src_pitch : Nat) (dst : Nat → Nat)
        (dst_pos : Point) (dst_pitch : Nat),
      ¬(SDL_BITSPERPIXEL pf % 8 = 0 ∧ 0 < SDL_BITSPERPIXEL pf ∧ SDL_BITSPERPIXEL pf ≤ 248) →
      copy_pixels src src_rect src_pitch dst dst_pos dst_pitch pf
        = .error (SdlError.sdl_err "unsupported pixel format because of unsupported bitspixel")) := by
  have hlt : ∀ pf : Nat, SDL_BITSPERPIXEL pf < 256 := by
    intro pf
    exact Nat.mod_lt _ (by norm_num)
  constructor
  · intro pf src src_rect src_pitch dst dst_pos dst_pitch h8 h0 h248 hpitch
    unfold copy_pixels
    rw [pixelByteOf_char _ (hlt pf), if_pos ⟨h8, h0, h248⟩]
    refine ⟨_, rfl, ?_, ?_⟩
    · intro y hy k hk
      exact copyRows_in src src_rect.position.x src_rect.position.y src_pitch
        dst_pos.x dst_pos.y dst_pitch _ _ hpitch _ dst y k hy hk
    · intro i hi
      exact copyRows_out src src_rect.position.x src_rect.position.y src_pitch
        dst_pos.x dst_pos.y dst_pitch _ _ _ dst i hi
  · intro pf src src_rect src_pitch dst dst_pos dst_pitch hbad
    unfold copy_pixels
    rw [pixelByteOf_char _ (hlt pf), if_neg hbad]

/-- Witness for C4: a supported 8-bit format (`pf = 2048`, bits 8, bpp 1)
copying a 2×2 rectangle, and an unsupported format (`pf = 0`, bits 0)
rejected. -/
theorem copy_pixels_copies_rows_or_rejects_witness :
    (∃ f, copy_pixels (fun i => 100 + i) (Rect.new 1 1 2 2) 4 (fun _ => 0)
        (Point.new 3 2) 8 2048 = .ok f ∧
      (∀ y, y < (Rect.new 1 1 2 2).size.height →
        ∀ k, k < (Rect.new 1 1 2 2).size.width * (SDL_BITSPERPIXEL 2048 / 8) →
        f (((Point.new 3 2).y + y) * 8 + (Point.new 3 2).x * (SDL_BITSPERPIXEL 2048 / 8) + k)
          = (fun i => 100 + i) (((Rect.new 1 1 2 2).position.y + y) * 4
              + (Rect.new 1 1 2 2).position.x * (SDL_BITSPERPIXEL 2048 / 8) + k)) ∧
      (∀ i, (∀ y, y < (Rect.new 1 1 2 2).size.height →
          i < ((Point.new 3 2).y + y) * 8 + (Point.new 3 2).x * (SDL_BITSPERPIXEL 2048 / 8) ∨
          ((Point.new 3 2).y + y) * 8 + (Point.new 3 2).x * (SDL_BITSPERPIXEL 2048 / 8)
            + (Rect.new 1 1 2 2).size.width * (SDL_BITSPERPIXEL 2048 / 8) ≤ i) →
        f i = (fun _ => 0 : Nat → Nat) i)) ∧
    copy_pixels (fun i => 100 + i) (Rect.new 1 1 2 2) 4 (fun _ => 0) (Point.new 3 2) 8 0
      = .error (SdlError.sdl_err "unsupported pixel format because of unsupported bitspixel") :=
  ⟨copy_pixels_copies_rows_or_rejects.1 2048 (fun i => 100 + i) (Rect.new 1 1 2 2) 4
      (fun _ => 0) (Point.new 3 2) 8 (by decide) (by decide) (by decide) (by decide),
   copy_pixels_copies_rows_or_rejects.2 0 (fun i => 100 + i) (Rect.new 1 1 2 2) 4
      (fun _ => 0) (Point.new 3 2) 8 (by decide)⟩

/-- The bounding-box fold only shrinks the minima and grows the maxima. -/
theorem bboxFold_mono (g : List (Nat × TextureHandle)) :
    ∀ acc : Nat × Nat × Nat × Nat,
      (g.foldl bboxStep acc).1 ≤ acc.1 ∧ (g.foldl bboxStep acc).2.1 ≤ acc.2.1 ∧
      acc.2.2.1 ≤ (g.foldl bboxStep acc).2.2.1 ∧ acc.2.2.2 ≤ (g.foldl bboxStep acc).2.2.2 := by
  induction g with
  | nil => intro acc; exact ⟨le_refl _, le_refl _, le_refl _, le_refl _⟩
  | cons p t ih =>
    intro acc
    have h := ih (bboxStep acc p)
    simp only [List.foldl_cons]
    unfold bboxStep at h ⊢
    dsimp only at h ⊢
    omega

/-- Every member of the group is bounded by the fold's minima/maxima. -/
theorem bboxFold_bounds_of_mem (g : List (Nat × TextureHandle)) :
    ∀ (acc : Nat × Nat × Nat × Nat) (p : Nat × TextureHandle), p ∈ g →
      (g.foldl bboxStep acc).1 ≤ p.2.rect.position.x ∧
      (g.foldl bboxStep acc).2.1 ≤ p.2.rect.position.y ∧
      p.2.rect.position.x + p.2.rect.size.width ≤ (g.foldl bboxStep acc).2.2.1 ∧
      p.2.rect.position.y + p.2.rect.size.height ≤ (g.foldl bboxStep acc).2.2.2 := by
  induction g with
  | nil => intro acc p hp; cases hp
  | cons q t ih =>
    intro acc p hp
    simp only [List.foldl_cons]
    rcases List.mem_cons.mp hp with h | h
    · subst h
      have hm := bboxFold_mono t (bboxStep acc p)
      unfold bboxStep at hm ⊢
      dsimp only at hm ⊢
      omega
    · exact ih (bboxStep acc q) p h

/-- The computed bounding rectangle covers every handle's inner rectangle
in the group. -/
theorem bboxOf_covers (g : List (Nat × TextureHandle)) (p : Nat × TextureHandle) (hp : p ∈ g) :
    (bboxOf g).position.x ≤ p.2.rect.position.x ∧
    (bboxOf g).position.y ≤ p.2.rect.position.y ∧
    p.2.rect.position.x + p.2.rect.size.width ≤ (bboxOf g).position.x + (bboxOf g).size.width ∧
    p.2.rect.position.y + p.2.rect.size.height ≤ (bboxOf g).position.y + (bboxOf g).size.height := by
  have h := bboxFold_bounds_of_mem g (UMAX, UMAX, 0, 0) p hp
  simp only [bboxOf, bboxFold, Rect.new, Point.new, Size.new] at h ⊢
  omega

/-- The per-group blit loop issues exactly one `copy_pixels` call per
member, at destination `handle.rect.position − bbox.position`, in group
order, regardless of individual blit outcomes. -/
theorem blitGroup_trace (pf : Nat) (sources : List SurfaceM) (bbox : Rect) (gp : Nat) :
    ∀ (group : List (Nat × TextureHandle)) (buf : Nat → Nat)
      (results : List (Except SdlError TextureHandle)),
      (blitGroup pf sources bbox gp group buf results).2
        = group.map fun p =>
            (p.1, Point.new (p.2.rect.position.x - bbox.position.x)
              (p.2.rect.position.y - bbox.position.y)) := by
  intro group
  induction group with
  | nil => intro buf results; rfl
  | cons q t ih =>
    intro buf results
    obtain ⟨orig_idx, handle⟩ := q
    simp only [blitGroup, List.map_cons]
    rcases hcp : copy_pixels (sources.getD orig_idx defaultSurface).pixels
        ⟨Point.new 0 0, handle.rect.size⟩ (sources.getD orig_idx defaultSurface).pitch
        buf (Point.new (handle.rect.position.x - bbox.position.x)
          (handle.rect.position.y - bbox.position.y)) gp pf with buf2 | e
    all_goals simp only [hcp, ih]

/-- The blit pass emits one event per non-empty group. -/
theorem blitPass_event_count (b : Backend) (pf : Nat) (sources : List SurfaceM) :
    ∀ (groups : List (List (Nat × TextureHandle))) (i0 : Nat)
      (results : List (Except SdlError TextureHandle)),
      (blitPass b pf sources groups i0 results).2.length
        = (groups.filter fun g => !g.isEmpty).length := by
  intro groups
  induction groups with
  | nil => intro i0 results; rfl
  | cons g t ih =>
    intro i0 results
    by_cases hg : g.isEmpty
    · simp only [blitPass, if_pos hg, List.filter_cons, hg]
      simpa using ih (i0 + 1) results
    · simp only [blitPass, if_neg hg, List.filter_cons]
      rcases hl : b.lockErr i0 (bboxOf g) with _ | e
      all_goals simp [hl, ih, hg]

/-- Every emitted event belongs to a non-empty group, carries that group's
fold bounding box and lock outcome, and (on lock success) one blit per
member at the member's offset from the bounding box. -/
theorem blitPass_events_mem (b : Backend) (pf : Nat) (sources : List SurfaceM) :
    ∀ (groups : List (List (Nat × TextureHandle))) (i0 : Nat)
      (results : List (Except SdlError TextureHandle))
      (ev : GroupEvent), ev ∈ (blitPass b pf sources groups i0 results).2 →
      ∃ g, g ∈ groups ∧ g ≠ [] ∧ ev.bbox = bboxOf g ∧
        ev.lockResult = b.lockErr ev.segIdx (bboxOf g) ∧
        (ev.lockResult = none →
          ev.blits = g.map fun p =>
            (p.1, Point.new (p.2.rect.position.x - (bboxOf g).position.x)
              (p.2.rect.position.y - (bboxOf g).position.y))) := by
  intro groups
  induction groups with
  | nil => intro i0 results ev hev; cases hev
  | cons g t ih =>
    intro i0 results ev hev
    by_cases hg : g.isEmpty
    · rw [blitPass, if_pos hg] at hev
      obtain ⟨g2, hg2, rest⟩ := ih (i0 + 1) results ev hev
      exact ⟨g2, List.mem_cons_of_mem _ hg2, rest⟩
    · simp only [blitPass, if_neg hg] at hev
      have hne : g ≠ [] := by simpa [List.isEmpty_iff] using hg
      rcases hl : b.lockErr i0 (bboxOf g) with _ | e
      · simp only [hl, List.mem_cons] at hev
        rcases hev with hev | hev
        · subst hev
          refine ⟨g, List.mem_cons_self _ _, hne, rfl, by simp [hl], fun _ => ?_⟩
          simp [blitGroup_trace]
        · obtain ⟨g2, hg2, rest⟩ := ih (i0 + 1) (blitGroup pf sources (bboxOf g)
            (b.lockPitch i0 (bboxOf g)) g (b.lockPixels i0 (bboxOf g)) results).1 ev hev
          exact ⟨g2, List.mem_cons_of_mem _ hg2, rest⟩
      · simp only [hl, List.mem_cons] at hev
        rcases hev with hev | hev
        · subst hev
          exact ⟨g, List.mem_cons_self _ _, hne, rfl, by simp [hl], fun h => by cases h⟩
        · obtain ⟨g2, hg2, rest⟩ := ih (i0 + 1)
            (g.foldl (fun rs p => rs.set p.1 (.error e)) results) ev hev
          exact ⟨g2, List.mem_cons_of_mem _ hg2, rest⟩

/-- C6: in the blit pass of `allocate_then_copy_surfaces`, every non-empty
segment group is locked exactly once (one event per non-empty group), each
event's lock rectangle is the group's bounding box — covering every
member's inner rectangle — and each member is blitted at offset
`handle.rect.position − bbox.position`; in the literal scenario of three
`(8,8)` sources on an empty `(32,32)` segment with padding 0, the
allocations land at `(0,0), (8,0), (16,0)`, the single lock rectangle is
`((0,0),(24,8))`, the local blit offsets are `(0,0), (8,0), (16,0)`, and
all three result slots are `Ok`. -/
theorem blit_pass_locks_each_group_bbox_once :
    (∀ (b : Backend) (pf : Nat) (sources : List SurfaceM)
        (groups : List (List (Nat × TextureHandle))) (i0 : Nat)
        (results : List (Except SdlError TextureHandle)),
      (blitPass b pf sources groups i0 results).2.length
          = (groups.filter fun g => !g.isEmpty).length ∧
      ∀ ev ∈ (blitPass b pf sources groups i0 results).2,
        ∃ g, g ∈ groups ∧ g ≠ [] ∧ ev.bbox = bboxOf g ∧
          (∀ p ∈ g,
            ev.bbox.position.x ≤ p.2.rect.position.x ∧
            ev.bbox.position.y ≤ p.2.rect.position.y ∧
            p.2.rect.position.x + p.2.rect.size.width
              ≤ ev.bbox.position.x + ev.bbox.size.width ∧
            p.2.rect.position.y + p.2.rect.size.height
              ≤ ev.bbox.position.y + ev.bbox.size.height) ∧
          (ev.lockResult = none →
            ev.blits = g.map fun p =>
              (p.1, Point.new (p.2.rect.position.x - (bboxOf g).position.x)
                (p.2.rect.position.y - (bboxOf g).position.y)))) ∧
    AtlasManager.allocate_then_copy_surfaces okBackend
        ⟨[AtlasSegment.Dynamic ⟨Size.new 32 32⟩ (Point.new 0 0) 0], 0, 0, Size.new 32 32, 8192⟩
        [⟨8192, .ok (Size.new 8 8), fun _ => 0, 32⟩,
         ⟨8192, .ok (Size.new 8 8), fun _ => 0, 32⟩,
         ⟨8192, .ok (Size.new 8 8), fun _ => 0, 32⟩]
      = ([.ok ⟨1, Rect.new 0 0 8 8⟩, .ok ⟨1, Rect.new 8 0 8 8⟩, .ok ⟨1, Rect.new 16 0 8 8⟩],
         ⟨[AtlasSegment.Dynamic ⟨Size.new 32 32⟩ (Point.new 24 0) 8], 0, 0, Size.new 32 32, 8192⟩,
         [⟨0, Rect.new 0 0 24 8, none,
           [(0, Point.new 0 0), (1, Point.new 8 0), (2, Point.new 16 0)]⟩]) := by
  refine ⟨fun b pf sources groups i0 results => ⟨blitPass_event_count b pf sources groups i0 results, ?_⟩, ?_⟩
  · intro ev hev
    obtain ⟨g, hgmem, hgne, hbbox, hlock, hblits⟩ :=
      blitPass_events_mem b pf sources groups i0 results ev hev
    exact ⟨g, hgmem, hgne, hbbox,
      fun p hp => hbbox ▸ bboxOf_covers g p hp, hblits⟩
  · rfl

/-- Witness for C6's general part, applied to a one-member group: the
emitted event's bounding box is the member's rectangle and its blit list
has the member at local offset `(0,0)`. -/
theorem blit_pass_locks_each_group_bbox_once_witness :
    ∃ g, g ∈ [[((0 : Nat), (⟨1, Rect.new 2 3 4 5⟩ : TextureHandle))]] ∧ g ≠ [] ∧
      (GroupEvent.mk 0 (Rect.new 2 3 4 5) none [(0, Point.new 0 0)]).bbox = bboxOf g ∧
      (∀ p ∈ g,
        (GroupEvent.mk 0 (Rect.new 2 3 4 5) none [(0, Point.new 0 0)]).bbox.position.x
            ≤ p.2.rect.position.x ∧
        (GroupEvent.mk 0 (Rect.new 2 3 4 5) none [(0, Point.new 0 0)]).bbox.position.y
            ≤ p.2.rect.position.y ∧
        p.2.rect.position.x + p.2.rect.size.width
            ≤ (GroupEvent.mk 0 (Rect.new 2 3 4 5) none [(0, Point.new 0 0)]).bbox.position.x
              + (GroupEvent.mk 0 (Rect.new 2 3 4 5) none [(0, Point.new 0 0)]).bbox.size.width ∧
        p.2.rect.position.y + p.2.rect.size.height
            ≤ (GroupEvent.mk 0 (Rect.new 2 3 4 5) none [(0, Point.new 0 0)]).bbox.position.y
              + (GroupEvent.mk 0 (Rect.new 2 3 4 5) none [(0, Point.new 0 0)]).bbox.size.height) ∧
      ((GroupEvent.mk 0 (Rect.new 2 3 4 5) none [(0, Point.new 0 0)]).lockResult = none →
        (GroupEvent.mk 0 (Rect.new 2 3 4 5) none [(0, Point.new 0 0)]).blits = g.map fun p =>
          (p.1, Point.new (p.2.rect.position.x - (bboxOf g).position.x)
            (p.2.rect.position.y - (bboxOf g).position.y))) :=
  (blit_pass_locks_each_group_bbox_once.1 okBackend 0 []
      [[(0, ⟨1, Rect.new 2 3 4 5⟩)]] 0 []).2
    (GroupEvent.mk 0 (Rect.new 2 3 4 5) none [(0, Point.new 0 0)]) (by decide)

/-- A backend whose lock fails exactly on segment 0: drives the
lock-failure scenario of the batched upload. -/
def lockFail0Backend : Backend :=
  ⟨fun _ => none, fun s _ => if s = 0 then some (.SdlError "lock failed") else none,
   fun _ _ => 1024, fun _ _ _ => 0⟩

/-- The allocation pass produces exactly one result slot per source. -/
theorem allocPass_results_length (b : Backend) :
    ∀ (sources : List SurfaceM) (m : AtlasManager) (i : Nat)
      (groups : List (List (Nat × TextureHandle))),
      (allocPass b m sources i groups).1.length = sources.length := by
  intro sources
  induction sources with
  | nil => intro m i groups; rfl
  | cons s t ih =>
    intro m i groups
    simp only [allocPass]
    split_ifs with hf
    · simp [ih]
    · rcases hs : s.sizeResult with e | size
      · simp [hs, ih]
      · rcases ha : m.allocate b size with e | ⟨handle, m2⟩
        · simp [hs, ha, ih]
        · simp [hs, ha, ih]

/-- The error-overwriting fold of a failed lock preserves the length of the
results vector. -/
theorem foldl_set_error_length (e : SdlError) :
    ∀ (g : List (Nat × TextureHandle)) (rs : List (Except SdlError TextureHandle)),
      (g.foldl (fun rs p => rs.set p.1 (Except.error e)) rs).length = rs.length := by
  intro g
  induction g with
  | nil => intro rs; rfl
  | cons q t ih => intro rs; simp only [List.foldl_cons]; rw [ih]; simp

/-- The error-overwriting fold leaves slots outside the group alone. -/
theorem foldl_set_error_get_ne (e : SdlError) :
    ∀ (g : List (Nat × TextureHandle)) (rs : List (Except SdlError TextureHandle)) (j : Nat),
      (∀ p ∈ g, p.1 ≠ j) →
      (g.foldl (fun rs p => rs.set p.1 (Except.error e)) rs).get? j = rs.get? j := by
  intro g
  induction g with
  | nil => intro rs j _; rfl
  | cons q t ih =>
    intro rs j hj
    simp only [List.foldl_cons]
    rw [ih _ _ fun p hp => hj p (List.mem_cons_of_mem _ hp),
      List.get?_set_ne _ _ (hj q (List.mem_cons_self _ _))]

/-- The error-overwriting fold writes the lock error into every slot of the
group (in range). -/
theorem foldl_set_error_get_mem (e : SdlError) :
    ∀ (g : List (Nat × TextureHandle)) (rs : List (Except SdlError TextureHandle)) (j : Nat),
      (∃ p ∈ g, p.1 = j) → j < rs.length →
      (g.foldl (fun rs p => rs.set p.1 (Except.error e)) rs).get? j
        = some (Except.error e) := by
  intro g
  induction g with
  | nil => intro rs j hj _; obtain ⟨p, hp, _⟩ := hj; cases hp
  | cons q t ih =>
    intro rs j hj hlen
    simp only [List.foldl_cons]
    by_cases ht : ∃ p ∈ t, p.1 = j
    · exact ih _ _ ht (by simpa using hlen)
    · obtain ⟨p, hp, hpj⟩ := hj
      have hq : q.1 = j := by
        rcases List.mem_cons.mp hp with h | h
        · rw [← h, hpj]
        · exact absurd ⟨p, h, hpj⟩ ht
      rw [foldl_set_error_get_ne e t _ j fun p hp hpj2 => ht ⟨p, hp, hpj2⟩]
      rw [hq, List.get?_set_eq_of_lt _ hlen]

/-- The per-group blit loop preserves the length of the results vector. -/
theorem blitGroup_results_length (pf : Nat) (sources : List SurfaceM) (bbox : Rect) (gp : Nat) :
    ∀ (group : List (Nat × TextureHandle)) (buf : Nat → Nat)
      (rs : List (Except SdlError TextureHandle)),
      (blitGroup pf sources bbox gp group buf rs).1.length = rs.length := by
  intro group
  induction group with
  | nil => intro buf rs; rfl
  | cons q t ih =>
    intro buf rs
    obtain ⟨orig_idx, handle⟩ := q
    simp only [blitGroup]
    rcases hcp : copy_pixels (sources.getD orig_idx defaultSurface).pixels
        ⟨Point.new 0 0, handle.rect.size⟩ (sources.getD orig_idx defaultSurface).pitch
        buf (Point.new (handle.rect.position.x - bbox.position.x)
          (handle.rect.position.y - bbox.position.y)) gp pf with buf2 | e
    · simp [hcp, ih]
    · simp [hcp, ih]

/-- The per-group blit loop leaves slots outside the group alone. -/
theorem blitGroup_get_ne (pf : Nat) (sources : List SurfaceM) (bbox : Rect) (gp : Nat) :
    ∀ (group : List (Nat × TextureHandle)) (buf : Nat → Nat)
      (rs : List (Except SdlError TextureHandle)) (j : Nat),
      (∀ p ∈ group, p.1 ≠ j) →
      (blitGroup pf sources bbox gp group buf rs).1.get? j = rs.get? j := by
  intro group
  induction group with
  | nil => intro buf rs j _; rfl
  | cons q t ih =>
    intro buf rs j hj
    obtain ⟨orig_idx, handle⟩ := q
    simp only [blitGroup]
    rcases hcp : copy_pixels (sources.getD orig_idx defaultSurface).pixels
        ⟨Point.new 0 0, handle.rect.size⟩ (sources.getD orig_idx defaultSurface).pitch
        buf (Point.new (handle.rect.position.x - bbox.position.x)
          (handle.rect.position.y - bbox.position.y)) gp pf with e | buf2
    · have hne : orig_idx ≠ j := hj (orig_idx, handle) (List.mem_cons_self _ _)
      simp only [hcp]
      rw [ih _ _ j fun p hp => hj p (List.mem_cons_of_mem _ hp),
        List.get?_set_ne _ _ hne]
    · simpa [hcp] using ih buf2 rs j fun p hp => hj p (List.mem_cons_of_mem _ hp)

/-- The blit pass preserves the length of the results vector. -/
theorem blitPass_results_length (b : Backend) (pf : Nat) (sources : List SurfaceM) :
    ∀ (groups : List (List (Nat × TextureHandle))) (i0 : Nat)
      (rs : List (Except SdlError TextureHandle)),
      (blitPass b pf sources groups i0 rs).1.length = rs.length := by
  intro groups
  induction groups with
  | nil => intro i0 rs; rfl
  | cons g t ih =>
    intro i0 rs
    by_cases hg : g.isEmpty
    · simp only [blitPass, if_pos hg]; exact ih _ _
    · simp only [blitPass, if_neg hg]
      rcases hl : b.lockErr i0 (bboxOf g) with _ | e
      · simp only [hl]
        rw [ih, blitGroup_results_length]
      · simp only [hl]
        rw [ih, foldl_set_error_length]

/-- The blit pass never touches a result slot whose index is in no group. -/
theorem blitPass_get_ne (b : Backend) (pf : Nat) (sources : List SurfaceM) :
    ∀ (groups : List (List (Nat × TextureHandle))) (i0 : Nat)
      (rs : List (Except SdlError TextureHandle)) (j : Nat),
      (∀ g ∈ groups, ∀ p ∈ g, p.1 ≠ j) →
      (blitPass b pf sources groups i0 rs).1.get? j = rs.get? j := by
  intro groups
  induction groups with
  | nil => intro i0 rs j _; rfl
  | cons g t ih =>
    intro i0 rs j hj
    have hrest : ∀ g2 ∈ t, ∀ p ∈ g2, p.1 ≠ j :=
      fun g2 hg2 => hj g2 (List.mem_cons_of_mem _ hg2)
    have hhead : ∀ p ∈ g, p.1 ≠ j := hj g (List.mem_cons_self _ _)
    by_cases hg : g.isEmpty
    · simp only [blitPass, if_pos hg]; exact ih _ _ _ hrest
    · simp only [blitPass, if_neg hg]
      rcases hl : b.lockErr i0 (bboxOf g) with _ | e
      · simp only [hl]
        rw [ih _ _ _ hrest, blitGroup_get_ne _ _ _ _ _ _ _ _ hhead]
      · simp only [hl]
        rw [ih _ _ _ hrest, foldl_set_error_get_ne _ _ _ _ hhead]

/-- If the lock of the `k`-th group fails with `e`, every result slot of a
member of that group (whose index belongs to no other group) ends up
holding `e`. -/
theorem blitPass_lock_fail_overwrites (b : Backend) (pf : Nat) (sources : List SurfaceM) :
    ∀ (groups : List (List (Nat × TextureHandle))) (i0 : Nat)
      (results : List (Except SdlError TextureHandle)) (k : Nat)
      (g : List (Nat × TextureHandle)) (e : SdlError) (p : Nat × TextureHandle),
      groups.get? k = some g → p ∈ g →
      b.lockErr (i0 + k) (bboxOf g) = some e →
      p.1 < results.length →
      (∀ k2 g2, k2 ≠ k → groups.get? k2 = some g2 → ∀ q ∈ g2, q.1 ≠ p.1) →
      (blitPass b pf sources groups i0 results).1.get? p.1
        = some (Except.error e) := by
  intro groups
  induction groups with
  | nil => intro i0 results k g e p hk; cases hk
  | cons g0 t ih =>
    intro i0 results k g e p hk hp hlock hlen huniq
    cases k with
    | zero =>
      have hg0 : g0 = g := by simpa using hk
      subst hg0
      have hg : ¬ g0.isEmpty := by
        cases g0
        · cases hp
        · simp
      rw [Nat.add_zero] at hlock
      simp only [blitPass, if_neg hg, hlock]
      have hrest : ∀ g2 ∈ t, ∀ q ∈ g2, q.1 ≠ p.1 := by
        intro g2 hg2 q hq
        obtain ⟨n, hn⟩ := List.get?_of_mem hg2
        exact huniq (n + 1) g2 (Nat.succ_ne_zero n) hn q hq
      rw [blitPass_get_ne b pf sources t (i0 + 1) _ p.1 hrest]
      exact foldl_set_error_get_mem e g0 results p.1 ⟨p, hp, rfl⟩ hlen
    | succ k2 =>
      have hk2 : t.get? k2 = some g := hk
      have hlock2 : b.lockErr (i0 + 1 + k2) (bboxOf g) = some e := by
        rw [show i0 + 1 + k2 = i0 + (k2 + 1) by omega]; exact hlock
      have huniq2 : ∀ k3 g3, k3 ≠ k2 → t.get? k3 = some g3 → ∀ q ∈ g3, q.1 ≠ p.1 :=
        fun k3 g3 hne hg3 => huniq (k3 + 1) g3 (by omega) hg3
      by_cases hg : g0.isEmpty
      · simp only [blitPass, if_pos hg]
        exact ih (i0 + 1) results k2 g e p hk2 hp hlock2 hlen huniq2
      · simp only [blitPass, if_neg hg]
        rcases hl : b.lockErr i0 (bboxOf g0) with _ | e0
        · simp only [hl]
          exact ih (i0 + 1) _ k2 g e p hk2 hp hlock2
            (by rw [blitGroup_results_length]; exact hlen) huniq2
        · simp only [hl]
          exact ih (i0 + 1) _ k2 g e p hk2 hp hlock2
            (by rw [foldl_set_error_length]; exact hlen) huniq2

/-- `AtlasManager::allocate` consults the backend only to create textures:
backends agreeing on `createErr` produce identical allocations. -/
theorem allocate_depends_only_on_create (b b2 : Backend)
    (h : b.createErr = b2.createErr) (m : AtlasManager) (request : Size) :
    m.allocate b request = m.allocate b2 request := by
  unfold AtlasManager.allocate AtlasManager.alloc_segment
  rw [h]

/-- The whole allocation pass depends on the backend only through
`createErr`: the segment list and cursors it produces are untouched by any
lock behaviour. -/
theorem allocPass_depends_only_on_create (b b2 : Backend)
    (h : b.createErr = b2.createErr) :
    ∀ (sources : List SurfaceM) (m : AtlasManager) (i : Nat)
      (groups : List (List (Nat × TextureHandle))),
      allocPass b m sources i groups = allocPass b2 m sources i groups := by
  intro sources
  induction sources with
  | nil => intro m i groups; rfl
  | cons s t ih =>
    intro m i groups
    simp only [allocPass]
    split_ifs with hf
    · rw [ih]
    · rcases hs : s.sizeResult with e | size
      · rw [ih]
      · dsimp only
        rw [allocate_depends_only_on_create b b2 h m size]
        rcases ha : m.allocate b2 size with e | ⟨handle, m2⟩
        · simp only [ha]
          rw [ih]
        · simp only [ha]
          rw [ih]

/-- `AtlasManager::allocate` never changes the manager's pixel format. -/
theorem allocate_preserves_pixel_format (b : Backend) (m : AtlasManager) (request : Size)
    (handle : TextureHandle) (m2 : AtlasManager)
    (h : m.allocate b request = .ok (handle, m2)) : m2.pixel_format = m.pixel_format := by
  simp only [AtlasManager.allocate, AtlasManager.alloc_segment] at h
  repeat' split at h
  all_goals cases h
  all_goals rfl

/-- The manager thread of the allocation pass: the state `allocate` has
reached after the first sources of the batch were processed (read off the
branch structure of the loop). -/
def allocPassManager (b : Backend) : AtlasManager → List SurfaceM → AtlasManager
  | m, [] => m
  | m, source :: rest =>
    if source.format ≠ m.pixel_format then allocPassManager b m rest
    else
      match source.sizeResult with
      | .error _ => allocPassManager b m rest
      | .ok source_size =>
        match m.allocate b source_size with
        | .ok (_, m2) => allocPassManager b m2 rest
        | .error _ => allocPassManager b m rest

/-- `allocPassManager` is exactly the manager component the allocation
pass returns. -/
theorem allocPass_manager_eq (b : Backend) :
    ∀ (sources : List SurfaceM) (m : AtlasManager) (i : Nat)
      (groups : List (List (Nat × TextureHandle))),
      (allocPass b m sources i groups).2.2 = allocPassManager b m sources := by
  intro sources
  induction sources with
  | nil => intro m i groups; rfl
  | cons s t ih =>
    intro m i groups
    simp only [allocPass, allocPassManager]
    split_ifs with hf
    · exact ih m (i + 1) groups
    · rcases hs : s.sizeResult with e | size
      · simp only [hs]
        exact ih m (i + 1) groups
      · rcases ha : m.allocate b size with e | ⟨handle, m2⟩
        · simp only [hs, ha]
          exact ih m (i + 1) groups
        · simp only [hs, ha]
          exact ih m2 (i + 1) _

/-- `allocPassManager` keeps the pixel format of its starting manager. -/
theorem allocPassManager_pixel_format (b : Backend) :
    ∀ (sources : List SurfaceM) (m : AtlasManager),
      (allocPassManager b m sources).pixel_format = m.pixel_format := by
  intro sources
  induction sources with
  | nil => intro m; rfl
  | cons s t ih =>
    intro m
    simp only [allocPassManager]
    split_ifs with hf
    · exact ih m
    · rcases hs : s.sizeResult with e | size
      · simp only [hs]
        exact ih m
      · rcases ha : m.allocate b size with e | ⟨handle, m2⟩
        · simp only [hs, ha]
          exact ih m
        · simp only [hs, ha]
          rw [ih m2, allocate_preserves_pixel_format b m size handle m2 ha]

/-- Per-slot characterisation of the allocation pass: slot `j` of the
results holds exactly source `j`'s own outcome — the format-mismatch error
when its format differs from the manager's, its size-query error, and
otherwise the outcome of `allocate` against the manager state reached after
the previous sources (failures of one source never spill into another
slot, and the batch continues past them). -/
theorem allocPass_get_slot (b : Backend) :
    ∀ (sources : List SurfaceM) (m : AtlasManager) (i : Nat)
      (groups : List (List (Nat × TextureHandle))) (j : Nat) (s : SurfaceM),
      sources.get? j = some s →
      (allocPass b m sources i groups).1.get? j = some (
        if s.format ≠ m.pixel_format
        then .error (SdlError.sdl_err "source surface format mismatch with atlas pixel format")
        else
          match s.sizeResult with
          | .error e => .error e
          | .ok source_size =>
            match (allocPassManager b m (sources.take j)).allocate b source_size with
            | .error e => .error e
            | .ok (handle, _) => .ok handle) := by
  intro sources
  induction sources with
  | nil => intro m i groups j s hj; cases hj
  | cons s0 t ih =>
    intro m i groups j s hj
    cases j with
    | zero =>
      have hs0 : s0 = s := by simpa using hj
      subst hs0
      simp only [allocPass, List.take, allocPassManager]
      split_ifs with hf
      · rfl
      · rcases hsz : s0.sizeResult with e | size
        · simp [hsz]
        · rcases ha : m.allocate b size with e | ⟨handle, m4⟩
          · simp [hsz, ha]
          · simp [hsz, ha]
    | succ j2 =>
      have hj2 : t.get? j2 = some s := hj
      simp only [allocPass, List.take, allocPassManager]
      by_cases hf : s0.format ≠ m.pixel_format
      · simp only [if_pos hf, List.get?_cons_succ]
        exact ih m (i + 1) groups j2 s hj2
      · simp only [if_neg hf]
        rcases hsz : s0.sizeResult with e | size
        · simp only [hsz, List.get?_cons_succ]
          exact ih m (i + 1) groups j2 s hj2
        · rcases ha : m.allocate b size with e | ⟨handle, m4⟩
          · simp only [hsz, ha, List.get?_cons_succ]
            exact ih m (i + 1) groups j2 s hj2
          · have hpf : m4.pixel_format = m.pixel_format :=
              allocate_preserves_pixel_format b m size handle m4 ha
            simp only [hsz, ha, List.get?_cons_succ]
            rw [← hpf]
            exact ih m4 (i + 1) (pushGroup groups (handle.index - 1) (i, handle)) j2 s hj2

/-- Every member of a group after `pushGroup` is either a member of an old
group or the pushed entry. -/
theorem pushGroup_mem (groups : List (List (Nat × TextureHandle))) (idx : Nat)
    (v : Nat × TextureHandle) (g : List (Nat × TextureHandle)) (q : Nat × TextureHandle)
    (hg : g ∈ pushGroup groups idx v) (hq : q ∈ g) :
    (∃ g2 ∈ groups, q ∈ g2) ∨ q = v := by
  unfold pushGroup at hg
  have hmem2 : ∀ g3, g3 ∈ (if groups.length ≤ idx
      then groups ++ List.replicate (idx + 1 - groups.length) [] else groups) →
      g3 = [] ∨ g3 ∈ groups := by
    intro g3 hg3
    split_ifs at hg3 with hlen
    · rcases List.mem_append.mp hg3 with h | h
      · exact Or.inr h
      · exact Or.inl (List.eq_of_mem_replicate h)
    · exact Or.inr hg3
  rcases List.mem_or_eq_of_mem_set hg with hin | heq
  · rcases hmem2 g hin with rfl | hgrp
    · cases hq
    · exact Or.inl ⟨g, hgrp, hq⟩
  · subst heq
    rcases List.mem_append.mp hq with hq2 | hq2
    · rw [List.getD_eq_get?] at hq2
      rcases hget : (if groups.length ≤ idx
          then groups ++ List.replicate (idx + 1 - groups.length) [] else groups).get? idx
          with _ | g3
      · rw [hget] at hq2; cases hq2
      · rw [hget] at hq2
        rcases hmem2 g3 (List.get?_mem hget) with rfl | hgrp
        · cases hq2
        · exact Or.inl ⟨g3, hgrp, hq2⟩
    · simp only [List.mem_singleton] at hq2
      exact Or.inr hq2

/-- Group entries with index below the running counter stay absent: the
allocation pass only pushes entries carrying the current counter. -/
theorem allocPass_groups_not_mem (b : Backend) :
    ∀ (sources : List SurfaceM) (m : AtlasManager) (i : Nat)
      (groups : List (List (Nat × TextureHandle))) (j0 : Nat), j0 < i →
      (∀ g ∈ groups, ∀ q ∈ g, q.1 ≠ j0) →
      ∀ g ∈ (allocPass b m sources i groups).2.1, ∀ q ∈ g, q.1 ≠ j0 := by
  intro sources
  induction sources with
  | nil => intro m i groups j0 _ hcl; exact hcl
  | cons s0 t ih =>
    intro m i groups j0 hj hcl
    simp only [allocPass]
    split_ifs with hf
    · exact ih m (i + 1) groups j0 (by omega) hcl
    · rcases hsz : s0.sizeResult with e | size
      · simp only [hsz]
        exact ih m (i + 1) groups j0 (by omega) hcl
      · rcases ha : m.allocate b size with e | ⟨handle, m4⟩
        · simp only [hsz, ha]
          exact ih m (i + 1) groups j0 (by omega) hcl
        · simp only [hsz, ha]
          apply ih m4 (i + 1) _ j0 (by omega)
          intro g hg q hq
          rcases pushGroup_mem groups (handle.index - 1) (i, handle) g q hg hq with
            ⟨g2, hg2, hq2⟩ | rfl
          · exact hcl g2 hg2 q hq2
          · simp only
            omega

/-- A source whose result slot is an error was never pushed into any
segment group. -/
theorem allocPass_error_slot_not_grouped (b : Backend) :
    ∀ (sources : List SurfaceM) (m : AtlasManager) (i : Nat)
      (groups : List (List (Nat × TextureHandle))) (j : Nat) (e : SdlError),
      (allocPass b m sources i groups).1.get? j = some (.error e) →
      (∀ g ∈ groups, ∀ q ∈ g, q.1 ≠ i + j) →
      ∀ g ∈ (allocPass b m sources i groups).2.1, ∀ q ∈ g, q.1 ≠ i + j := by
  intro sources
  induction sources with
  | nil => intro m i groups j e hslot; cases hslot
  | cons s0 t ih =>
    intro m i groups j e hslot hcl
    cases j with
    | zero =>
      simp only [Nat.add_zero] at hcl ⊢
      simp only [allocPass] at hslot ⊢
      split_ifs at hslot ⊢ with hf
      · exact allocPass_groups_not_mem b t m (i + 1) groups i (by omega) hcl
      · rcases hsz : s0.sizeResult with e2 | size
        · simp only [hsz] at hslot ⊢
          exact allocPass_groups_not_mem b t m (i + 1) groups i (by omega) hcl
        · rcases ha : m.allocate b size with e2 | ⟨handle, m4⟩
          · simp only [hsz, ha] at hslot ⊢
            exact allocPass_groups_not_mem b t m (i + 1) groups i (by omega) hcl
          · simp only [hsz, ha, List.get?_cons_zero] at hslot
            simp at hslot
    | succ j2 =>
      have harith : i + (j2 + 1) = (i + 1) + j2 := by omega
      rw [harith] at hcl ⊢
      simp only [allocPass] at hslot ⊢
      split_ifs at hslot ⊢ with hf
      · exact ih m (i + 1) groups j2 e (by simpa using hslot) hcl
      · rcases hsz : s0.sizeResult with e2 | size
        · simp only [hsz] at hslot ⊢
          exact ih m (i + 1) groups j2 e (by simpa using hslot) hcl
        · rcases ha : m.allocate b size with e2 | ⟨handle, m4⟩
          · simp only [hsz, ha] at hslot ⊢
            exact ih m (i + 1) groups j2 e (by simpa using hslot) hcl
          · simp only [hsz, ha] at hslot ⊢
            apply ih m4 (i + 1) _ j2 e (by simpa using hslot)
            intro g hg q hq
            rcases pushGroup_mem groups (handle.index - 1) (i, handle) g q hg hq with
              ⟨g2, hg2, hq2⟩ | rfl
            · exact hcl g2 hg2 q hq2
            · simp only
              omega

/-- An error recorded during the allocation pass survives the blit pass
untouched: the failed source belongs to no segment group, so no lock or
blit ever rewrites its slot. -/
theorem error_slot_survives_blit (b : Backend) (m : AtlasManager) (sources : List SurfaceM)
    (j : Nat) (e : SdlError)
    (h : (allocPass b m sources 0 (List.replicate m.segments.length [])).1.get? j
      = some (.error e)) :
    (m.allocate_then_copy_surfaces b sources).1.get? j = some (.error e) := by
  have hclean0 : ∀ g ∈ (List.replicate m.segments.length ([] : List (Nat × TextureHandle))),
      ∀ q ∈ g, q.1 ≠ 0 + j := by
    intro g hg q hq
    rw [List.eq_of_mem_replicate hg] at hq
    cases hq
  have hclean := allocPass_error_slot_not_grouped b sources m 0
    (List.replicate m.segments.length []) j e h hclean0
  unfold AtlasManager.allocate_then_copy_surfaces
  rw [blitPass_get_ne b _ sources _ 0 _ j
    (fun g hg q hq => by simpa using hclean g hg q hq)]
  exact h

/-- Starting manager for the batched-upload scenarios: one empty `(32,32)`
Dynamic segment, padding 0, pixel format 8192 (32 bits per pixel). -/
def scenarioManager : AtlasManager :=
  ⟨[AtlasSegment.Dynamic ⟨Size.new 32 32⟩ (Point.new 0 0) 0], 0, 0, Size.new 32 32, 8192⟩

/-- Two `(20,20)` sources (filling segment 0 and spilling to segment 1)
followed by an `(8,8)` source landing on segment 1. -/
def twoGroupSources : List SurfaceM :=
  [⟨8192, .ok (Size.new 20 20), fun _ => 0, 80⟩,
   ⟨8192, .ok (Size.new 20 20), fun _ => 0, 80⟩,
   ⟨8192, .ok (Size.new 8 8), fun _ => 0, 32⟩]

/-- C7: the batched upload returns one result slot per source, in source
order; a source that fails the format check, the size query, or allocation
gets its own error in its own slot — proved for every source position `j`,
with the other sources still processed (the allocation-pass slot
characterisation `allocPass_get_slot` gives every slot its own source's
outcome, against the manager state `allocPassManager` reached after the
previous sources, and a failed source joins no segment group, so the blit
pass never rewrites its slot); if the single lock of a segment group
fails, every slot of that group (whose index lies in no other group) is
overwritten with the lock error; the manager returned — segment list and
cursors — depends only on texture creation, never on lock outcomes; and in
the concrete two-group scenario a lock failure on segment 0 errors exactly
that group's two slots while the other group's source still uploads and
the allocations are kept (cursors stay advanced, nothing is rolled back),
and a format-mismatched source gets its error in its own slot with no
allocation performed for it while the other source proceeds. -/
theorem batched_upload_per_source_slots_and_lock_failure :
    (∀ (b : Backend) (m : AtlasManager) (sources : List SurfaceM),
      (m.allocate_then_copy_surfaces b sources).1.length = sources.length) ∧
    (∀ (b : Backend) (m : AtlasManager) (sources : List SurfaceM) (j : Nat) (s : SurfaceM),
      sources.get? j = some s →
      (s.format ≠ m.pixel_format →
        (m.allocate_then_copy_surfaces b sources).1.get? j
          = some (.error (SdlError.sdl_err
              "source surface format mismatch with atlas pixel format"))) ∧
      (∀ e, s.format = m.pixel_format → s.sizeResult = .error e →
        (m.allocate_then_copy_surfaces b sources).1.get? j = some (.error e)) ∧
      (∀ size e, s.format = m.pixel_format → s.sizeResult = .ok size →
        (allocPassManager b m (List.take j sources)).allocate b size = .error e →
        (m.allocate_then_copy_surfaces b sources).1.get? j = some (.error e))) ∧
    (∀ (b : Backend) (m : AtlasManager) (sources : List SurfaceM) (k : Nat)
        (g : List (Nat × TextureHandle)) (e : SdlError) (p : Nat × TextureHandle),
      (allocPass b m sources 0 (List.replicate m.segments.length [])).2.1.get? k = some g →
      p ∈ g → b.lockErr k (bboxOf g) = some e → p.1 < sources.length →
      (∀ k2 g2, k2 ≠ k →
        (allocPass b m sources 0 (List.replicate m.segments.length [])).2.1.get? k2
          = some g2 → ∀ q ∈ g2, q.1 ≠ p.1) →
      (m.allocate_then_copy_surfaces b sources).1.get? p.1
        = some (Except.error e)) ∧
    (∀ (b b2 : Backend) (m : AtlasManager) (sources : List SurfaceM),
      b.createErr = b2.createErr →
      (m.allocate_then_copy_surfaces b sources).2.1
        = (m.allocate_then_copy_surfaces b2 sources).2.1) ∧
    scenarioManager.allocate_then_copy_surfaces lockFail0Backend twoGroupSources
      = ([.error (.SdlError "lock failed"), .error (.SdlError "lock failed"),
          .ok ⟨2, Rect.new 20 0 8 8⟩],
         ⟨[AtlasSegment.Dynamic ⟨Size.new 32 32⟩ (Point.new 20 0) 20,
           AtlasSegment.Dynamic ⟨Size.new 32 32⟩ (Point.new 28 0) 20],
          1, 0, Size.new 32 32, 8192⟩,
         [⟨0, Rect.new 0 0 20 20, some (.SdlError "lock failed"), []⟩,
          ⟨1, Rect.new 20 0 8 8, none, [(2, Point.new 0 0)]⟩]) ∧
    scenarioManager.allocate_then_copy_surfaces okBackend
        [⟨8192, .ok (Size.new 8 8), fun _ => 0, 32⟩,
         ⟨9999, .ok (Size.new 8 8), fun _ => 0, 32⟩]
      = ([.ok ⟨1, Rect.new 0 0 8 8⟩,
          .error (.SdlError "source surface format mismatch with atlas pixel format")],
         ⟨[AtlasSegment.Dynamic ⟨Size.new 32 32⟩ (Point.new 8 0) 8],
          0, 0, Size.new 32 32, 8192⟩,
         [⟨0, Rect.new 0 0 8 8, none, [(0, Point.new 0 0)]⟩]) := by
  refine ⟨?_, ?_, ?_, ?_, rfl, rfl⟩
  · intro b m sources
    unfold AtlasManager.allocate_then_copy_surfaces
    rw [blitPass_results_length, allocPass_results_length]
  · intro b m sources j s hj
    refine ⟨?_, ?_, ?_⟩
    · intro hfmt
      apply error_slot_survives_blit
      rw [allocPass_get_slot b sources m 0 (List.replicate m.segments.length []) j s hj]
      rw [if_pos hfmt]
    · intro e hfmt hsz
      apply error_slot_survives_blit
      rw [allocPass_get_slot b sources m 0 (List.replicate m.segments.length []) j s hj]
      simp only [if_neg (not_not_intro hfmt), hsz]
    · intro size e hfmt hsz hallocfail
      apply error_slot_survives_blit
      rw [allocPass_get_slot b sources m 0 (List.replicate m.segments.length []) j s hj]
      simp only [if_neg (not_not_intro hfmt), hsz, hallocfail]
  · intro b m sources k g e p hk hp hlock hlen huniq
    unfold AtlasManager.allocate_then_copy_surfaces
    exact blitPass_lock_fail_overwrites b _ sources _ 0 _ k g e p hk hp
      (by simpa using hlock)
      (by rw [allocPass_results_length]; exact hlen) huniq
  · intro b b2 m sources h
    unfold AtlasManager.allocate_then_copy_surfaces
    simp only [allocPass_depends_only_on_create b b2 h]

/-- A backend on which every texture creation fails: drives the
allocation-failure scenario of the batched upload. -/
def createFailBackend : Backend :=
  ⟨fun _ => some (.SdlError "create failed"), fun _ _ => none,
   fun _ _ => 1024, fun _ _ _ => 0⟩

/-- Witness for C7: in the two-group scenario with the lock failing on
segment 0, the first source's result slot holds the lock error; a source
whose size query fails, and a source whose allocation fails (texture
creation error), each get their own error in their own slot. -/
theorem batched_upload_per_source_slots_and_lock_failure_witness :
    (scenarioManager.allocate_then_copy_surfaces lockFail0Backend twoGroupSources).1.get? 0
      = some (Except.error (.SdlError "lock failed")) ∧
    (scenarioManager.allocate_then_copy_surfaces okBackend
        [⟨8192, .error (.SdlError "size query failed"), fun _ => 0, 0⟩]).1.get? 0
      = some (Except.error (.SdlError "size query failed")) ∧
    (scenarioManager.allocate_then_copy_surfaces createFailBackend
        [⟨8192, .ok (Size.new 40 40), fun _ => 0, 160⟩]).1.get? 0
      = some (Except.error (.SdlError "create failed")) := by
  refine ⟨?_, ?_, ?_⟩
  case refine_2 =>
    exact (batched_upload_per_source_slots_and_lock_failure.2.1 okBackend scenarioManager
      [⟨8192, .error (.SdlError "size query failed"), fun _ => 0, 0⟩] 0 _ rfl).2.1
      (.SdlError "size query failed") rfl rfl
  case refine_3 =>
    exact (batched_upload_per_source_slots_and_lock_failure.2.1 createFailBackend
      scenarioManager [⟨8192, .ok (Size.new 40 40), fun _ => 0, 160⟩] 0 _ rfl).2.2
      (Size.new 40 40) (.SdlError "create failed") rfl rfl rfl
  have hgroups : (allocPass lockFail0Backend scenarioManager twoGroupSources 0
      (List.replicate scenarioManager.segments.length [])).2.1
      = [[(0, ⟨1, Rect.new 0 0 20 20⟩), (1, ⟨1, Rect.new 0 0 20 20⟩)],
         [(2, ⟨2, Rect.new 20 0 8 8⟩)]] := by decide
  apply batched_upload_per_source_slots_and_lock_failure.2.2.1 lockFail0Backend
    scenarioManager twoGroupSources 0
    [(0, ⟨1, Rect.new 0 0 20 20⟩), (1, ⟨1, Rect.new 0 0 20 20⟩)]
    (.SdlError "lock failed") (0, ⟨1, Rect.new 0 0 20 20⟩)
  · rw [hgroups]; rfl
  · decide
  · decide
  · decide
  · intro k2 g2 hne hget q hq
    rw [hgroups] at hget
    match k2, hget with
    | 1, hget =>
      have hg2 : g2 = [(2, ⟨2, Rect.new 20 0 8 8⟩)] := by
        injection hget with h2
        exact h2.symm
      subst hg2
      have : q = (2, ⟨2, Rect.new 20 0 8 8⟩) := by simpa using hq
      subst this
      decide

end WSCB
